import Mathlib

/-!
Verification of the Meridian CCM agent's evidence and trust pipeline.

Shallow embedding of the agent's Python sources:
  * `services/agent/crypto/merkle.py` — append-only SHA-256 Merkle log
  * `services/agent/crypto/keys.py`   — canonical JSON + Ed25519 signing shell
  * `services/agent/claims.py`        — confidence / result / caveats
  * `services/agent/envelope.py`      — trust levels and envelopes
  * `services/agent/checks.py`        — the LA.02 terminations check
  * `services/agent/main.py`          — the cycle driver's evidence step

Machine integers are `Nat` with explicit `% 2^w`; Python `float` rounding
is modelled over `ℚ` with `round(x, 4)` as round-half-even to 4 decimals;
fallible code returns `Option` / `Except`.
-/

/-! ## SHA-256 (hashlib.sha256, bytes → lowercase hex digest) -/

/-- Reduce modulo 2^32 (Python ints are unbounded; SHA-256 works mod 2^32). -/
def m32 (x : Nat) : Nat := x % 4294967296

/-- Reduce modulo 2^8. -/
def m8 (x : Nat) : Nat := x % 256

/-- 32-bit right rotation. -/
def rotr32 (n x : Nat) : Nat := m32 ((x >>> n) ||| (x <<< (32 - n)))

def bsig0 (x : Nat) : Nat := rotr32 2 x ^^^ rotr32 13 x ^^^ rotr32 22 x

def bsig1 (x : Nat) : Nat := rotr32 6 x ^^^ rotr32 11 x ^^^ rotr32 25 x

def ssig0 (x : Nat) : Nat := rotr32 7 x ^^^ rotr32 18 x ^^^ (x >>> 3)

def ssig1 (x : Nat) : Nat := rotr32 17 x ^^^ rotr32 19 x ^^^ (x >>> 10)

/-- SHA-256 choice function; `¬x` within 32 bits is `x ^^^ 0xffffffff`. -/
def chf (x y z : Nat) : Nat := (x &&& y) ^^^ ((x ^^^ 4294967295) &&& z)

def majf (x y z : Nat) : Nat := (x &&& y) ^^^ (x &&& z) ^^^ (y &&& z)

/-- The 64 SHA-256 round constants. -/
def sha2K : List Nat :=
  [1116352408, 1899447441, 3049323471, 3921009573, 961987163, 1508970993,
   2453635748, 2870763221, 3624381080, 310598401, 607225278, 1426881987,
   1925078388, 2162078206, 2614888103, 3248222580, 3835390401, 4022224774,
   264347078, 604807628, 770255983, 1249150122, 1555081692, 1996064986,
   2554220882, 2821834349, 2952996808, 3210313671, 3336571891, 3584528711,
   113926993, 338241895, 666307205, 773529912, 1294757372, 1396182291,
   1695183700, 1986661051, 2177026350, 2456956037, 2730485921, 2820302411,
   3259730800, 3345764771, 3516065817, 3600352804, 4094571909, 275423344,
   430227734, 506948616, 659060556, 883997877, 958139571, 1322822218,
   1537002063, 1747873779, 1955562222, 2024104815, 2227730452, 2361852424,
   2428436474, 2756734187, 3204031479, 3329325298]

/-- The initial SHA-256 hash state. -/
def sha2H0 : List Nat :=
  [1779033703, 3144134277, 1013904242, 2773480762,
   1359893119, 2600822924, 528734635, 1541459225]

/-- Split a byte list into chunks of `n` bytes. -/
def chunksOf (n : Nat) (l : List Nat) : List (List Nat) :=
  if h : l = [] ∨ n = 0 then []
  else l.take n :: chunksOf n (l.drop n)
termination_by l.length
decreasing_by
  push_neg at h
  have hl : 0 < l.length := List.length_pos.mpr h.1
  simp [List.length_drop]
  omega

/-- Big-endian 32-bit words from bytes. -/
def bytesToWords : List Nat → List Nat
  | a :: b :: c :: d :: rest => (((a * 256 + b) * 256 + c) * 256 + d) :: bytesToWords rest
  | _ => []

/-- SHA-256 message padding: append 0x80, zeros, and the 64-bit bit length. -/
def sha256pad (msg : List Nat) : List Nat :=
  let len := msg.length
  let padZeros := (64 - ((len + 9) % 64)) % 64
  let bl := 8 * len
  msg ++ (128 :: List.replicate padZeros 0) ++
    [m8 (bl >>> 56), m8 (bl >>> 48), m8 (bl >>> 40), m8 (bl >>> 32),
     m8 (bl >>> 24), m8 (bl >>> 16), m8 (bl >>> 8), m8 bl]

/-- Extend 16 message-schedule words to 64. -/
def schedExt (w16 : List Nat) : List Nat :=
  (List.range 48).foldl
    (fun acc _ =>
      let n := acc.length
      acc ++ [m32 (ssig1 (acc.getD (n - 2) 0) + acc.getD (n - 7) 0 +
                   ssig0 (acc.getD (n - 15) 0) + acc.getD (n - 16) 0)])
    w16

/-- One SHA-256 round on the 8-word state. -/
def roundStep (st : List Nat) (kw : Nat × Nat) : List Nat :=
  match st with
  | [a, b, c, d, e, f, g, h] =>
    let t1 := m32 (h + bsig1 e + chf e f g + kw.1 + kw.2)
    let t2 := m32 (bsig0 a + majf a b c)
    [m32 (t1 + t2), a, b, c, m32 (d + t1), e, f, g]
  | other => other

/-- Compress one 16-word block into the running hash state. -/
def compress (h : List Nat) (w16 : List Nat) : List Nat :=
  let w := schedExt w16
  let st := (sha2K.zip w).foldl roundStep h
  (h.zip st).map (fun p => m32 (p.1 + p.2))

/-- The eight 32-bit digest words of a byte message. -/
def sha256words (msg : List Nat) : List Nat :=
  (chunksOf 64 (sha256pad msg)).foldl (fun h blk => compress h (bytesToWords blk)) sha2H0

/-- The 32 digest bytes of a byte message. -/
def sha256bytes (msg : List Nat) : List Nat :=
  (sha256words msg).flatMap (fun w => [m8 (w >>> 24), m8 (w >>> 16), m8 (w >>> 8), m8 w])

def hexAlphabet : String := "0123456789abcdef"

def hexDigitChar (n : Nat) : Char := hexAlphabet.data.getD n '0'

def byteHexChars (b : Nat) : List Char := [hexDigitChar (b / 16), hexDigitChar (b % 16)]

/-- `merkle.py::_sha256` — `hashlib.sha256(data).hexdigest()`. -/
def _sha256 (data : List Nat) : String :=
  String.mk ((sha256bytes data).flatMap byteHexChars)

/-! ## Canonical JSON (json.dumps sort_keys=True, separators=(",",":"), ensure_ascii) -/

/-- Structured values as passed to `json.dumps`. Numeric values in the agent's
payloads are integers; floats and other objects (rendered via `default=str`)
do not occur in the values the claims quantify over. -/
inductive Json where
  | null : Json
  | bool (b : Bool) : Json
  | int (n : Int) : Json
  | str (s : String) : Json
  | arr (xs : List Json) : Json
  | obj (kvs : List (String × Json)) : Json

def hex4 (n : Nat) : List Char :=
  [hexDigitChar (n / 4096 % 16), hexDigitChar (n / 256 % 16),
   hexDigitChar (n / 16 % 16), hexDigitChar (n % 16)]

/-- One character of a JSON string under `ensure_ascii=True` escaping. -/
def escChar (c : Char) : List Char :=
  if c = '"' then ['\\', '"']
  else if c = '\\' then ['\\', '\\']
  else
    let n := c.toNat
    if n = 8 then ['\\', 'b']
    else if n = 9 then ['\\', 't']
    else if n = 10 then ['\\', 'n']
    else if n = 12 then ['\\', 'f']
    else if n = 13 then ['\\', 'r']
    else if n < 32 ∨ 126 < n then
      if n ≤ 65535 then '\\' :: 'u' :: hex4 n
      else
        let np := n - 65536
        ('\\' :: 'u' :: hex4 (55296 + np / 1024)) ++ ('\\' :: 'u' :: hex4 (56320 + np % 1024))
    else [c]

def dumpString (s : String) : List Char := '"' :: s.data.flatMap escChar ++ ['"']

/-- Insert a key/value pair keeping keys ascending (Python's `sort_keys=True`). -/
def insertKV (x : String × Json) : List (String × Json) → List (String × Json)
  | [] => [x]
  | y :: ys => if x.1 < y.1 then x :: y :: ys else y :: insertKV x ys

def sortKVs : List (String × Json) → List (String × Json)
  | [] => []
  | x :: xs => insertKV x (sortKVs xs)

theorem sizeOf_insertKV (x : String × Json) (l : List (String × Json)) :
    sizeOf (insertKV x l) = sizeOf (x :: l) := by
  induction l with
  | nil => rfl
  | cons y ys ih =>
    simp only [insertKV]
    split
    · rfl
    · simp only [List.cons.sizeOf_spec, ih]
      omega

theorem sizeOf_sortKVs (l : List (String × Json)) : sizeOf (sortKVs l) = sizeOf l := by
  induction l with
  | nil => rfl
  | cons x xs ih =>
    simp only [sortKVs, sizeOf_insertKV, List.cons.sizeOf_spec, ih]

mutual

/-- `json.dumps(v, sort_keys=True, separators=(",", ":"))` as a char list. -/
def dumpJson : Json → List Char
  | .null => "null".data
  | .bool true => "true".data
  | .bool false => "false".data
  | .int n => (toString n).data
  | .str s => dumpString s
  | .arr xs => '[' :: (List.intercalate [','] (dumpArr xs) ++ [']'])
  | .obj kvs => '{' :: (List.intercalate [','] (dumpObj (sortKVs kvs)) ++ ['}'])
termination_by j => sizeOf j
decreasing_by
  all_goals simp only [sizeOf_sortKVs, Json.arr.sizeOf_spec, Json.obj.sizeOf_spec,
    List.cons.sizeOf_spec, Prod.mk.sizeOf_spec]
  all_goals omega

def dumpArr : List Json → List (List Char)
  | [] => []
  | x :: xs => dumpJson x :: dumpArr xs
termination_by l => sizeOf l
decreasing_by
  all_goals simp only [List.cons.sizeOf_spec, Prod.mk.sizeOf_spec]
  all_goals omega

def dumpObj : List (String × Json) → List (List Char)
  | [] => []
  | (k, v) :: rest => (dumpString k ++ ':' :: dumpJson v) :: dumpObj rest
termination_by l => sizeOf l
decreasing_by
  all_goals simp only [List.cons.sizeOf_spec, Prod.mk.sizeOf_spec]
  all_goals omega

end

/-- `keys.py::_canonical` / the canonical bytes fed to every hash and
signature. With `ensure_ascii=True` the dump is pure ASCII, so its UTF-8
bytes are exactly the character code points. -/
def _canonical (payload : Json) : List Nat := (dumpJson payload).map Char.toNat

/-! ## Merkle log (`crypto/merkle.py`) -/

/-- UTF-8 bytes of a hash string; all hashes handled by the tree are
ASCII hex digests, so the bytes are the code points. -/
def asciiBytes (s : String) : List Nat := s.data.map Char.toNat

/-- `merkle.py::_hash_leaf` — `sha256(b"\x00" + canonical)`. -/
def _hash_leaf (item : Json) : String := _sha256 (0 :: _canonical item)

/-- `merkle.py::_hash_pair` — `sha256(b"\x01" + left.encode() + right.encode())`:
the operands are the ASCII-hex strings of the children, not their raw bytes. -/
def _hash_pair (left right : String) : String :=
  _sha256 (1 :: (asciiBytes left ++ asciiBytes right))

/-- Duplicate the last element when the level has odd length
(`current + [current[-1]]`). -/
def padEven (l : List String) : List String :=
  if l.length % 2 = 0 then l else l ++ [l.getLastD ""]

/-- Hash consecutive pairs of a level. -/
def pairUp : List String → List String
  | a :: b :: rest => _hash_pair a b :: pairUp rest
  | _ => []

/-- One level up: pad to even length, then hash pairs. -/
def nextLevel (l : List String) : List String := pairUp (padEven l)

theorem pairUp_length (l : List String) : (pairUp l).length = l.length / 2 := by
  match l with
  | [] => simp [pairUp]
  | [a] => simp [pairUp]
  | a :: b :: rest =>
    simp only [pairUp, List.length_cons, pairUp_length rest]
    omega

theorem padEven_length (l : List String) :
    (padEven l).length = if l.length % 2 = 0 then l.length else l.length + 1 := by
  unfold padEven
  split <;> simp

theorem nextLevel_length (l : List String) :
    (nextLevel l).length = (l.length + 1) / 2 := by
  unfold nextLevel
  rw [pairUp_length, padEven_length]
  split <;> omega

/-- The `while len(levels[-1]) > 1` loop of `_build_tree`, starting from a
non-empty level. -/
def buildLevels (l : List String) : List (List String) :=
  if h : l.length ≤ 1 then [l] else l :: buildLevels (nextLevel l)
termination_by l.length
decreasing_by
  rw [nextLevel_length]
  omega

/-- `merkle.py::_build_tree` — `levels[0] = leaves`, `levels[-1] = [root]`,
empty input gives `[]`. -/
def _build_tree (leaves : List String) : List (List String) :=
  if leaves.isEmpty then [] else buildLevels leaves

namespace MerkleTree

/-- The tree state is its leaf list (`self._leaves`). -/
def count (leaves : List String) : Nat := leaves.length

/-- The root string `levels[-1][0]` of a non-empty tree. -/
def rootStr (leaves : List String) : String :=
  ((_build_tree leaves).getLastD []).headD ""

/-- `MerkleTree.root` — `None` when the tree is empty. -/
def root (leaves : List String) : Option String :=
  if leaves.isEmpty then none else some (rootStr leaves)

/-- `MerkleTree.append` — hash the item, push the leaf, return it. -/
def append (leaves : List String) (item : Json) : List String × String :=
  (leaves ++ [_hash_leaf item], _hash_leaf item)

/-- `MerkleTree.append_leaf_hash` — push a pre-computed leaf hash. -/
def append_leaf_hash (leaves : List String) (leaf_hash : String) : List String :=
  leaves ++ [leaf_hash]

/-- `MerkleTree.load_leaves` — replace the leaves with the given list. -/
def load_leaves (_leaves : List String) (leaf_hashes : List String) : List String :=
  leaf_hashes

/-- One `proof_hashes` entry: a sibling hash and `"left"` or `"right"`. -/
structure ProofStep where
  hash : String
  position : String

/-- The sibling step taken at one level of `get_proof` for current index `idx`. -/
def stepAt (level : List String) (idx : Nat) : ProofStep :=
  let padded := padEven level
  if idx % 2 = 0 then ⟨padded.getD (idx + 1) "", "right"⟩
  else ⟨padded.getD (idx - 1) "", "left"⟩

/-- The `for level in levels[:-1]` loop of `get_proof`, halving the index. -/
def proofHashes : List (List String) → Nat → List ProofStep
  | [], _ => []
  | lv :: rest, idx => stepAt lv idx :: proofHashes rest (idx / 2)

/-- The returned proof dict of `get_proof`. -/
structure MerkleProof where
  leaf_hash : String
  index : Int
  proof_hashes : List ProofStep
  root_hash : String

/-- `MerkleTree.get_proof` — `none` models the `IndexError` raised when
`index < 0 or index >= len(self._leaves)`. -/
def get_proof (leaves : List String) (index : Int) : Option MerkleProof :=
  if index < 0 ∨ (leaves.length : Int) ≤ index then none
  else
    some { leaf_hash := leaves.getD index.toNat ""
           index := index
           proof_hashes := proofHashes (_build_tree leaves).dropLast index.toNat
           root_hash := rootStr leaves }

/-- One iteration of the `verify_proof` loop: combine `current` with the
recorded sibling, ordered by the recorded position. -/
def verifyStep (cur : String) (s : ProofStep) : String :=
  if s.position = "right" then _hash_pair cur s.hash else _hash_pair s.hash cur

/-- The verification fold of `verify_proof`. -/
def verifyFold (steps : List ProofStep) (leaf_hash : String) : String :=
  steps.foldl verifyStep leaf_hash

/-- `MerkleTree.verify_proof`. -/
def verify_proof (leaf_hash : String) (proof_hashes : List ProofStep) (root_hash : String) : Bool :=
  verifyFold proof_hashes leaf_hash == root_hash

end MerkleTree

/-! ## Merkle correctness lemmas -/

namespace MerkleTree

theorem buildLevels_ne_nil (l : List String) : buildLevels l ≠ [] := by
  rw [buildLevels]
  split <;> simp

theorem dropLast_cons_ne (a : List String) (B : List (List String)) (h : B ≠ []) :
    (a :: B).dropLast = a :: B.dropLast := by
  cases B with
  | nil => simp at h
  | cons b bs => rfl

theorem getLastD_cons_ne (a : List String) (B : List (List String)) (h : B ≠ []) :
    (a :: B).getLastD [] = B.getLastD [] := by
  cases B with
  | nil => simp at h
  | cons b bs => rfl

theorem padEven_getD (l : List String) (i : Nat) (h : i < l.length) (d : String) :
    (padEven l).getD i d = l.getD i d := by
  unfold padEven
  split
  · rfl
  · exact List.getD_append _ _ _ _ h

theorem pairUp_getD (l : List String) (j : Nat) (h : 2 * j + 1 < l.length) :
    (pairUp l).getD j "" = _hash_pair (l.getD (2 * j) "") (l.getD (2 * j + 1) "") := by
  match l, j with
  | [], j => simp at h
  | [a], j => simp at h
  | a :: b :: rest, 0 => simp [pairUp]
  | a :: b :: rest, j + 1 =>
    have h2 : 2 * j + 1 < rest.length := by
      simp only [List.length_cons] at h
      omega
    have e1 : 2 * (j + 1) = 2 * j + 1 + 1 := by omega
    have e2 : 2 * (j + 1) + 1 = 2 * j + 1 + 1 + 1 := by omega
    rw [e2, e1]
    simp only [pairUp, List.getD_cons_succ]
    exact pairUp_getD rest j h2

theorem verifyStep_stepAt (l : List String) (idx : Nat) (h : idx < l.length) :
    verifyStep (l.getD idx "") (stepAt l idx) = (nextLevel l).getD (idx / 2) "" := by
  have hplen : (padEven l).length = if l.length % 2 = 0 then l.length else l.length + 1 :=
    padEven_length l
  unfold verifyStep stepAt nextLevel
  by_cases hp : idx % 2 = 0
  · simp only [hp, reduceIte, String.reduceEq]
    have hb : 2 * (idx / 2) + 1 < (padEven l).length := by
      by_cases he : l.length % 2 = 0 <;> simp [he] at hplen <;> omega
    rw [pairUp_getD _ _ hb]
    have e1 : 2 * (idx / 2) = idx := by omega
    rw [e1, padEven_getD l idx h]
  · simp only [hp, reduceIte, String.reduceEq]
    have hb : 2 * (idx / 2) + 1 < (padEven l).length := by
      by_cases he : l.length % 2 = 0 <;> simp [he] at hplen <;> omega
    rw [pairUp_getD _ _ hb]
    have e1 : 2 * (idx / 2) = idx - 1 := by omega
    have e2 : 2 * (idx / 2) + 1 = idx := by omega
    rw [e2, e1, padEven_getD l idx h]

theorem verifyFold_cons (s : ProofStep) (ss : List ProofStep) (cur : String) :
    verifyFold (s :: ss) cur = verifyFold ss (verifyStep cur s) := rfl

/-- The inclusion-proof fold recomputes the root, for any leaf index. -/
theorem verifyFold_chain (l : List String) (idx : Nat) (h : idx < l.length) :
    verifyFold (proofHashes (buildLevels l).dropLast idx) (l.getD idx "") =
      ((buildLevels l).getLastD []).headD "" := by
  by_cases h1 : l.length ≤ 1
  · have hb : buildLevels l = [l] := by rw [buildLevels]; simp [h1]
    rw [hb]
    have hidx : idx = 0 := by omega
    subst hidx
    cases l with
    | nil => simp at h
    | cons a t => simp [verifyFold, proofHashes]
  · have hb : buildLevels l = l :: buildLevels (nextLevel l) := by
      rw [buildLevels]; simp [h1]
    rw [hb, dropLast_cons_ne _ _ (buildLevels_ne_nil _)]
    rw [show proofHashes (l :: (buildLevels (nextLevel l)).dropLast) idx =
          stepAt l idx :: proofHashes (buildLevels (nextLevel l)).dropLast (idx / 2) from rfl]
    rw [verifyFold_cons, verifyStep_stepAt l idx h]
    have hlt : idx / 2 < (nextLevel l).length := by
      rw [nextLevel_length]; omega
    rw [verifyFold_chain (nextLevel l) (idx / 2) hlt]
    rw [getLastD_cons_ne _ _ (buildLevels_ne_nil _)]
termination_by l.length
decreasing_by rw [nextLevel_length]; omega

end MerkleTree

/-! ## base64url (`base64.urlsafe_b64encode` / lenient `urlsafe_b64decode`) -/

def b64Alphabet : String :=
  "ABCDEFGHIJKLMNOPQRSTUVWXYZabcdefghijklmnopqrstuvwxyz0123456789-_"

def b64Chr (v : Nat) : Char := b64Alphabet.data.getD v 'A'

def b64Val? (c : Char) : Option Nat := b64Alphabet.data.indexOf? c

/-- `base64.urlsafe_b64encode`: three bytes become four alphabet characters;
a trailing group of one or two bytes is completed with `'='` padding.
Python's implementation keeps the padding characters. -/
def encChunks : List Nat → List Char
  | b0 :: b1 :: b2 :: rest =>
    b64Chr (b0 / 4) :: b64Chr (b0 % 4 * 16 + b1 / 16) ::
      b64Chr (b1 % 16 * 4 + b2 / 64) :: b64Chr (b2 % 64) :: encChunks rest
  | [b0, b1] => [b64Chr (b0 / 4), b64Chr (b0 % 4 * 16 + b1 / 16), b64Chr (b1 % 16 * 4), '=']
  | [b0] => [b64Chr (b0 / 4), b64Chr (b0 % 4 * 16), '=', '=']
  | [] => []

/-- The same encoding with the `'='` padding characters stripped. -/
def encCore : List Nat → List Char
  | b0 :: b1 :: b2 :: rest =>
    b64Chr (b0 / 4) :: b64Chr (b0 % 4 * 16 + b1 / 16) ::
      b64Chr (b1 % 16 * 4 + b2 / 64) :: b64Chr (b2 % 64) :: encCore rest
  | [b0, b1] => [b64Chr (b0 / 4), b64Chr (b0 % 4 * 16 + b1 / 16), b64Chr (b1 % 16 * 4)]
  | [b0] => [b64Chr (b0 / 4), b64Chr (b0 % 4 * 16)]
  | [] => []

/-- Remove trailing `'='` characters (the unpadded form of an encoding). -/
def stripPad (cs : List Char) : List Char :=
  (cs.reverse.dropWhile (fun c => c == '=')).reverse

/-- `binascii.a2b_base64` in its default non-strict mode, as reached through
`base64.urlsafe_b64decode`: decode four-character groups; at the first `'='`
the current group is finished (two or three data characters give one or two
bytes, zero give nothing) and everything after it is ignored; a group that
ends with a single data character is an error. Characters outside the
alphabet yield an error here; Python discards them, but no caller in this
development ever passes one. `none` models the raised `binascii.Error`. -/
def a2b_base64 : List Char → Option (List Nat)
  | [] => some []
  | c1 :: cs1 =>
    if c1 = '=' then some []
    else
      match b64Val? c1 with
      | none => none
      | some v1 =>
        match cs1 with
        | [] => none
        | c2 :: cs2 =>
          if c2 = '=' then none
          else
            match b64Val? c2 with
            | none => none
            | some v2 =>
              match cs2 with
              | [] => none
              | c3 :: cs3 =>
                if c3 = '=' then some [v1 * 4 + v2 / 16]
                else
                  match b64Val? c3 with
                  | none => none
                  | some v3 =>
                    match cs3 with
                    | [] => none
                    | c4 :: cs4 =>
                      if c4 = '=' then some [v1 * 4 + v2 / 16, v2 % 16 * 16 + v3 / 4]
                      else
                        match b64Val? c4 with
                        | none => none
                        | some v4 =>
                          (a2b_base64 cs4).map
                            (fun rest =>
                              (v1 * 4 + v2 / 16) :: (v2 % 16 * 16 + v3 / 4) ::
                                (v3 % 4 * 64 + v4) :: rest)

/-! ## Ed25519 signing shell (`crypto/keys.py`)

The Ed25519 primitives of the `cryptography` library are abstracted as
parameters: `rawSign` is `self._private.sign` (64 signature bytes) and
`rawVerify sig msg` is `self._public.verify(sig, msg)` returning normally
(`true`) or raising (`false`). The base64 and canonical-JSON layers are
concrete. -/

namespace KeyPair

/-- `KeyPair.sign` — `base64.urlsafe_b64encode(raw_sig).decode("ascii")`. -/
def sign (rawSign : List Nat → List Nat) (payload : Json) : String :=
  String.mk (encChunks (rawSign (_canonical payload)))

/-- `KeyPair.verify` — decodes `signature + b"=="` leniently, then checks the
raw signature; any failure (decode error or verify error) returns `false`. -/
def verify (rawVerify : List Nat → List Nat → Bool) (payload : Json) (signature : String) :
    Bool :=
  match a2b_base64 (signature.data ++ ['=', '=']) with
  | none => false
  | some sig => rawVerify sig (_canonical payload)

end KeyPair

/-! ## Claims (`claims.py`) -/

/-- Python `round(q, 4)`: round-half-even to four decimal places. -/
def roundHalfEven (q : ℚ) : ℤ :=
  if q - ⌊q⌋ = 1 / 2 then (if ⌊q⌋ % 2 = 0 then ⌊q⌋ else ⌊q⌋ + 1) else round q

def round4 (q : ℚ) : ℚ := (roundHalfEven (q * 10000) : ℚ) / 10000

/-- The summary metrics a `CheckResult` may carry (`summary.get(key, default)`
with an absent key behaving as the default). -/
structure Summary where
  recent_users_checked : Nat := 0
  missing_approval : Nat := 0
  disabled_users_with_sla_tracking : Nat := 0
  sla_breaches : Nat := 0
  sla_days : Int := 0
  days_since_uar : Option Int := none
  max_days_since_uar : Option Int := none
  admin_count : Int := 0
  max_allowed : Int := 0

/-- One findings entry (the fields the claim builder reads). -/
structure Finding where
  username : String := ""
  days_open : Int := 0
  days_overdue : Int := 0

/-- `checks.py::CheckResult`. `status` is one of `"pass"`, `"fail"`,
`"error"`. -/
structure CheckResult where
  status : String
  summary : Summary := {}
  findings : List Finding := []
  short_description : String := ""
  description : String := ""

/-- `claims.py::_compute_confidence`. -/
def _compute_confidence (result : CheckResult) (ctrl_id : String) : ℚ :=
  if result.status = "error" then 0.1
  else if result.status = "pass" then 1.0
  else
    if ctrl_id = "LA.01" then
      let checked := result.summary.recent_users_checked
      let missing := result.summary.missing_approval
      if checked > 0 then round4 (1.0 - (missing : ℚ) / (checked : ℚ)) else 0.0
    else if ctrl_id = "LA.02" then
      let tracked := result.summary.disabled_users_with_sla_tracking
      let breaches := result.summary.sla_breaches
      if tracked > 0 then round4 (1.0 - (breaches : ℚ) / (tracked : ℚ)) else 0.0
    else 0.0

/-- `claims.py::_build_caveats`. The caveat texts are translated verbatim up
to ASCII quoting of user names. -/
def _build_caveats (result : CheckResult) (ctrl_id : String) : List String :=
  if result.status = "error" then
    ["Check failed with an error; evidence may be incomplete."]
  else
    (if ctrl_id = "LA.01" ∧ result.status = "fail" then
       [toString result.summary.missing_approval ++
        " account(s) are missing the required approval attribute and may represent unauthorised access grants."]
     else []) ++
    (if ctrl_id = "LA.02" ∧ result.status = "fail" then
       result.findings.map (fun f =>
         "User '" ++ f.username ++ "' is " ++ toString f.days_overdue ++
         " day(s) overdue for access revocation.")
     else []) ++
    (if ctrl_id = "LA.03" ∧ result.status = "fail" then
       match result.summary.days_since_uar with
       | none => ["No UAR completion date found in the realm configuration."]
       | some days =>
         ["Access review is " ++ toString (days - result.summary.max_days_since_uar.getD 90) ++
          " day(s) overdue."]
     else []) ++
    (if ctrl_id = "LA.04" ∧ result.status = "fail" then
       [toString (result.summary.admin_count - result.summary.max_allowed) ++
        " excess privileged account(s) require immediate review and removal."]
     else [])

/-- `claims.py::_build_recommendations`. -/
def _build_recommendations (result : CheckResult) (ctrl_id : String) : List String :=
  if result.status = "pass" ∨ result.status = "error" then []
  else if ctrl_id = "LA.01" then
    ["Audit provisioning workflow to enforce approval gates before account creation.",
     "Set the required 'approvedBy' attribute for all flagged accounts retroactively.",
     "Enable automated provisioning enforcement that blocks account creation without an approved request."]
  else if ctrl_id = "LA.02" then
    ["Immediately disable access for all accounts past the SLA deadline.",
     "Implement automated deprovisioning triggered by termination events.",
     "Review and tighten the offboarding SLA with HR and IT operations."]
  else if ctrl_id = "LA.03" then
    ["Complete a User Access Review immediately and record the date in realm attributes.",
     "Schedule quarterly UAR reminders and assign a named owner.",
     "Automate UAR initiation and tracking within the IAM platform."]
  else if ctrl_id = "LA.04" then
    ["Immediately remove or downgrade excess privileged accounts.",
     "Implement a Just-in-Time (JIT) privileged access model.",
     "Establish a periodic admin account review cadence."]
  else
    ["Review and remediate the identified control failure."]

/-- The deterministic fields of `claims.py::build_claim` (UUID, timestamps
and the signature are produced from ambient state and are not modelled). -/
structure Claim where
  result : String
  confidence : ℚ
  caveats : List String
  recommendations : List String

/-- `claims.py::build_claim` — confidence, result grade, caveats and
recommendations exactly as the source computes them. -/
def build_claim (result : CheckResult) (ctrl_id : String) : Claim :=
  let confidence := _compute_confidence result ctrl_id
  let claim_result :=
    if result.status = "pass" then "SATISFIED"
    else if result.status = "error" then "INDETERMINATE"
    else if 0.0 < confidence ∧ confidence < 1.0 then "PARTIAL"
    else "NOT_SATISFIED"
  { result := claim_result
    confidence := confidence
    caveats := _build_caveats result ctrl_id
    recommendations := _build_recommendations result ctrl_id }

/-! ## Trust envelopes (`envelope.py`) -/

/-- `envelope.py::compute_trust_level` (the `TrustLevel` str-enum values). -/
def compute_trust_level (composite_confidence : ℚ) : String :=
  if composite_confidence ≥ 0.95 then "VERIFIED"
  else if composite_confidence ≥ 0.75 then "HIGH"
  else if composite_confidence ≥ 0.55 then "MEDIUM"
  else if composite_confidence ≥ 0.30 then "LOW"
  else "CRITICAL"

/-- The deterministic fields of a `TrustEnvelope` relevant to the claims. -/
structure TrustEnvelope where
  trust_level : String
  composite_confidence : ℚ
  total_items : Nat
  merkle_root : Option String

/-- `envelope.py::build_trust_envelope` — composite confidence is the
rounded mean of the claim confidences (0.0 for no claims); the trust level
is computed from it; the evidence summary snapshots the Merkle tree. -/
def build_trust_envelope (claims : List Claim) (merkle_leaves : List String) : TrustEnvelope :=
  let composite_confidence :=
    if claims.isEmpty then 0.0
    else round4 ((claims.map (fun c => c.confidence)).sum / (claims.length : ℚ))
  { trust_level := compute_trust_level composite_confidence
    composite_confidence := composite_confidence
    total_items := MerkleTree.count merkle_leaves
    merkle_root := MerkleTree.root merkle_leaves }

/-! ## The LA.02 terminations check (`checks.py::terminations_sla`)

`parseIso` abstracts `datetime.fromisoformat` (+ UTC defaulting), returning
the termination instant as UTC seconds; `now` is the current UTC instant in
seconds. `(now - term_date).days` is floor division of the elapsed seconds
by 86400. A user's `termDates` is `attributes.get(term_attr, [])`. -/

structure KCUser where
  username : String := ""
  enabled : Bool := true
  termDates : List String := []

/-- One iteration of the `for user in disabled` loop, acting on the
`(tracked, breaches)` accumulator. The source increments `tracked` before
attempting the parse, so a parse failure still counts as tracked. -/
def slaStep (parseIso : String → Option Int) (now sla_days : Int)
    (acc : Nat × List Finding) (u : KCUser) : Nat × List Finding :=
  match u.termDates with
  | [] => acc
  | raw :: _ =>
    match parseIso raw with
    | none => (acc.1 + 1, acc.2)
    | some t =>
      let days_open := Int.fdiv (now - t) 86400
      if days_open > sla_days then
        (acc.1 + 1, acc.2 ++
          [{ username := u.username, days_open := days_open,
             days_overdue := days_open - sla_days }])
      else (acc.1 + 1, acc.2)

/-- `checks.py::terminations_sla` after a successful `list_users` fetch. -/
def terminations_sla (parseIso : String → Option Int) (now sla_days : Int)
    (users : List KCUser) : CheckResult :=
  let disabled := users.filter (fun u => !u.enabled)
  let tb := disabled.foldl (slaStep parseIso now sla_days) (0, [])
  let summary : Summary :=
    { sla_days := sla_days
      disabled_users_with_sla_tracking := tb.1
      sla_breaches := tb.2.length }
  if tb.2.length > 0 then
    { status := "fail"
      summary := summary
      findings := tb.2
      short_description :=
        "LA.02: " ++ toString tb.2.length ++ " terminated account(s) breached the " ++
        toString sla_days ++ "-day SLA (worst: " ++
        toString ((tb.2.map (fun b => b.days_overdue)).foldl max 0) ++ "d overdue)"
      description :=
        toString tb.2.length ++ " account(s) were not disabled within the " ++
        toString sla_days ++ "-day SLA after termination request.\nAffected: " ++
        String.intercalate ", " (tb.2.map (fun b => b.username)) }
  else { status := "pass", summary := summary }

/-! ## The cycle driver's evidence step (`main.py::run_cycle` / `main`)

For each control the driver signs the payload, appends it to the in-memory
Merkle tree, and persists the evidence row; none of these is wrapped in a
`try`, so a raised exception propagates out of `run_cycle` (aborting the
whole cycle — `main` catches it and reconnects, keeping the same
`merkle_tree` object). `signOk` / `insertOk` flag whether `signer.sign` /
`db.insert_evidence` raise; `Except.error` carries the state left behind by
the propagating exception. -/

structure AgentState where
  merkleLeaves : List String
  persisted : List (String × Nat)

structure ControlExec where
  signOk : Bool
  insertOk : Bool
  payload : Json

def processControl (st : AgentState) (c : ControlExec) : Except AgentState AgentState :=
  if !c.signOk then .error st
  else
    let leaf_hash := _hash_leaf c.payload
    let leaves := st.merkleLeaves ++ [leaf_hash]
    let leaf_index := leaves.length - 1
    if !c.insertOk then .error { st with merkleLeaves := leaves }
    else .ok { merkleLeaves := leaves, persisted := st.persisted ++ [(leaf_hash, leaf_index)] }

def runControls (st : AgentState) : List ControlExec → Except AgentState AgentState
  | [] => .ok st
  | c :: cs =>
    match processControl st c with
    | .error st2 => .error st2
    | .ok st2 => runControls st2 cs

/-! ## Tree construction helpers for the reconstruction claim -/

/-- The tree produced by `append`-ing every item of `items` in order. -/
def buildByAppend (items : List Json) : List String :=
  items.foldl (fun t it => (MerkleTree.append t it).1) []

/-- A fresh tree seeded with `append_leaf_hash` per persisted hash. -/
def seedViaAppendLeafHash (hashes : List String) : List String :=
  hashes.foldl MerkleTree.append_leaf_hash []

/-! ## Sample inputs and claim-side predicates -/

/-- A `CheckResult` with `status = "error"`. -/
def sampleError : CheckResult := { status := "error" }

/-- A failing LA.01 `CheckResult` with 1 of 4 recent users non-compliant. -/
def sampleFailLA01 : CheckResult :=
  { status := "fail", summary := { recent_users_checked := 4, missing_approval := 1 } }

/-- An Ed25519 signing primitive returning a fixed 64-byte signature. -/
def zeroRawSign : List Nat → List Nat := fun _ => List.replicate 64 0

/-- A raw signer used to instantiate the abstract Ed25519 parameter. -/
def nilRawSign : List Nat → List Nat := fun _ => []

/-- A raw verifier accepting everything. -/
def alwaysVerify : List Nat → List Nat → Bool := fun _ _ => true

/-- The user carries a termination attribute (non-empty value list). -/
def hasTermAttr (u : KCUser) : Bool := !u.termDates.isEmpty

/-- The user's termination attribute parses (the spec's notion of tracked). -/
def parsesTermAttr (parseIso : String → Option Int) (u : KCUser) : Bool :=
  match u.termDates with
  | [] => false
  | raw :: _ => (parseIso raw).isSome

/-- The user's parsed termination date breaches the SLA. -/
def breachesSla (parseIso : String → Option Int) (now sla_days : Int) (u : KCUser) : Bool :=
  match u.termDates with
  | [] => false
  | raw :: _ =>
    match parseIso raw with
    | none => false
    | some t => decide (Int.fdiv (now - t) 86400 > sla_days)

/-- A date parser on which every string fails. -/
def parseNone : String → Option Int := fun _ => none

/-- A disabled user whose termination attribute does not parse. -/
def badUser : KCUser := { username := "u1", enabled := false, termDates := ["not-a-date"] }

/-- The claim's reading of the tracked count: disabled, attribute present
AND parseable. -/
def claimTrackedCount (parseIso : String → Option Int) (users : List KCUser) : Nat :=
  users.countP (fun u => !u.enabled && parsesTermAttr parseIso u)

/-! ## Helper lemmas -/

theorem foldl_append_leaf_hash (hs acc : List String) :
    hs.foldl MerkleTree.append_leaf_hash acc = acc ++ hs := by
  induction hs generalizing acc with
  | nil => simp
  | cons h t ih => simp [MerkleTree.append_leaf_hash, ih]

/-! ## Claim C2 -/

/-- C2: a fresh Merkle tree seeded via `load_leaves` or `append_leaf_hash`
with the leaf hashes of the tree built by `append`-ing the items of `L` in
order has the same leaves, hence the same root and count, and appending any
further item to either tree yields the same root. -/
theorem c2_seed_reconstruction (items : List Json) (x : Json) :
    MerkleTree.load_leaves [] (buildByAppend items) = buildByAppend items ∧
    seedViaAppendLeafHash (buildByAppend items) = buildByAppend items ∧
    MerkleTree.root (seedViaAppendLeafHash (buildByAppend items)) =
      MerkleTree.root (buildByAppend items) ∧
    MerkleTree.count (seedViaAppendLeafHash (buildByAppend items)) =
      MerkleTree.count (buildByAppend items) ∧
    MerkleTree.root (MerkleTree.append (seedViaAppendLeafHash (buildByAppend items)) x).1 =
      MerkleTree.root (MerkleTree.append (buildByAppend items) x).1 := by
  have hseed : seedViaAppendLeafHash (buildByAppend items) = buildByAppend items := by
    unfold seedViaAppendLeafHash
    rw [foldl_append_leaf_hash]
    simp
  exact ⟨rfl, hseed, by rw [hseed], by rw [hseed], by rw [hseed]⟩

/-! ## Claim C3 -/

/-- C3: the leaf hash is SHA-256 of byte 0x00 followed by the canonical JSON
bytes; the interior hash is SHA-256 of byte 0x01 followed by the ASCII bytes
of the two hex-string children; an odd-length level duplicates its last
element before pairing; and the root of a one-leaf tree is that leaf. -/
theorem c3_hash_formats (item : Json) (l r leaf : String) (lvl : List String) :
    _hash_leaf item = _sha256 (0 :: _canonical item) ∧
    _hash_pair l r = _sha256 (1 :: (asciiBytes l ++ asciiBytes r)) ∧
    (lvl.length % 2 = 1 → nextLevel lvl = pairUp (lvl ++ [lvl.getLastD ""])) ∧
    MerkleTree.root [leaf] = some leaf := by
  refine ⟨rfl, rfl, ?_, ?_⟩
  · intro hodd
    unfold nextLevel padEven
    rw [if_neg (by omega)]
  · simp [MerkleTree.root, MerkleTree.rootStr, _build_tree, buildLevels]

/-- C3 witness: a level of odd length 3 is padded with its last element. -/
theorem c3_witness :
    nextLevel ["x", "y", "z"] = pairUp (["x", "y", "z"] ++ [List.getLastD ["x", "y", "z"] ""]) :=
  (c3_hash_formats Json.null "" "" "" ["x", "y", "z"]).2.2.1 (by decide)

/-! ## Claim C4 -/

/-- C4: when `db.insert_evidence` raises for the first of two controls, the
cycle driver leaves the in-memory Merkle append in place (one leaf, zero
persisted rows) and aborts the whole cycle, so the second control never
runs: the rollback the spec requires does not happen. -/
theorem c4_insert_failure_no_rollback :
    runControls { merkleLeaves := [], persisted := [] }
        [{ signOk := true, insertOk := false, payload := Json.obj [] },
         { signOk := true, insertOk := true, payload := Json.obj [] }] =
      .error { merkleLeaves := [_hash_leaf (Json.obj [])], persisted := [] } := rfl

/-! ## Claim C7 -/

/-- C7: `KeyPair.sign` emits the base64url encoding WITH its two `'='`
padding characters (88 characters for a 64-byte Ed25519 signature),
contradicting the documented unpadded form. -/
theorem c7_sign_output_is_padded :
    (KeyPair.sign zeroRawSign (Json.obj [])).data.count ('=') = 2 ∧
    (KeyPair.sign zeroRawSign (Json.obj [])).length = 88 := by
  constructor
  · decide
  · decide

/-! ## Claim C5 -/

/-- C5: confidence is 0.1 on error and 1.0 on pass; on fail it is the
rounded pass-rate for LA.01 / LA.02 (0.0 when the denominator is 0) and 0.0
for every other control id; the claim result is SATISFIED on pass,
INDETERMINATE on error, and on fail PARTIAL exactly when the confidence is
strictly between 0 and 1, otherwise NOT_SATISFIED. -/
theorem c5_confidence_and_result (r : CheckResult) (cid : String) :
    (r.status = "error" → _compute_confidence r cid = 0.1) ∧
    (r.status = "pass" → _compute_confidence r cid = 1.0) ∧
    (r.status = "fail" → cid = "LA.01" →
      _compute_confidence r cid =
        (if 0 < r.summary.recent_users_checked then
          round4 (1.0 - (r.summary.missing_approval : ℚ) / (r.summary.recent_users_checked : ℚ))
        else 0.0)) ∧
    (r.status = "fail" → cid = "LA.02" →
      _compute_confidence r cid =
        (if 0 < r.summary.disabled_users_with_sla_tracking then
          round4 (1.0 - (r.summary.sla_breaches : ℚ) /
            (r.summary.disabled_users_with_sla_tracking : ℚ))
        else 0.0)) ∧
    (r.status = "fail" → cid ≠ "LA.01" → cid ≠ "LA.02" → _compute_confidence r cid = 0.0) ∧
    (build_claim r cid).confidence = _compute_confidence r cid ∧
    (r.status = "pass" → (build_claim r cid).result = "SATISFIED") ∧
    (r.status = "error" → (build_claim r cid).result = "INDETERMINATE") ∧
    (r.status = "fail" →
      (build_claim r cid).result =
        (if 0.0 < _compute_confidence r cid ∧ _compute_confidence r cid < 1.0 then "PARTIAL"
         else "NOT_SATISFIED")) := by
  refine ⟨?_, ?_, ?_, ?_, ?_, rfl, ?_, ?_, ?_⟩
  · intro h
    simp [_compute_confidence, h]
  · intro h
    simp [_compute_confidence, h]
  · intro h h1
    simp [_compute_confidence, h, h1]
  · intro h h2
    simp [_compute_confidence, h, h2]
  · intro h h1 h2
    simp [_compute_confidence, h, h1, h2]
  · intro h
    simp [build_claim, h]
  · intro h
    simp [build_claim, h]
  · intro h
    simp [build_claim, h]

/-- C5 witness: the error and fail cases at concrete check results. -/
theorem c5_witness :
    _compute_confidence sampleError "LA.03" = 0.1 ∧
    (build_claim sampleFailLA01 "LA.01").result =
      (if 0.0 < _compute_confidence sampleFailLA01 "LA.01" ∧
          _compute_confidence sampleFailLA01 "LA.01" < 1.0 then "PARTIAL"
       else "NOT_SATISFIED") :=
  ⟨(c5_confidence_and_result sampleError "LA.03").1 rfl,
   (c5_confidence_and_result sampleFailLA01 "LA.01").2.2.2.2.2.2.2.2 rfl⟩

/-! ## Claim C6 -/

/-- C6: `compute_trust_level` maps composite confidence to the five trust
bands exactly at the documented thresholds, and every envelope built by
`build_trust_envelope` stores the trust level computed from its own
composite confidence. -/
theorem c6_trust_thresholds (c : ℚ) (h0 : 0 ≤ c) (h1 : c ≤ 1)
    (claims : List Claim) (leaves : List String) :
    (compute_trust_level c = "VERIFIED" ↔ 0.95 ≤ c) ∧
    (compute_trust_level c = "HIGH" ↔ 0.75 ≤ c ∧ c < 0.95) ∧
    (compute_trust_level c = "MEDIUM" ↔ 0.55 ≤ c ∧ c < 0.75) ∧
    (compute_trust_level c = "LOW" ↔ 0.30 ≤ c ∧ c < 0.55) ∧
    (compute_trust_level c = "CRITICAL" ↔ c < 0.30) ∧
    (build_trust_envelope claims leaves).trust_level =
      compute_trust_level ((build_trust_envelope claims leaves).composite_confidence) := by
  refine ⟨?_, ?_, ?_, ?_, ?_, rfl⟩ <;>
  · unfold compute_trust_level
    split_ifs with h95 h75 h55 h30 <;>
      simp <;>
      first
        | linarith
        | (constructor <;> linarith)
        | (intro hx; linarith)

/-- C6 witness: the MEDIUM band at confidence 0.6 and a concrete envelope. -/
theorem c6_witness :
    (compute_trust_level 0.6 = "MEDIUM" ↔ (0.55 : ℚ) ≤ 0.6 ∧ (0.6 : ℚ) < 0.75) ∧
    (build_trust_envelope [] []).trust_level =
      compute_trust_level ((build_trust_envelope [] []).composite_confidence) :=
  ⟨(c6_trust_thresholds 0.6 (by norm_num) (by norm_num) [] []).2.2.1,
   (c6_trust_thresholds 0.6 (by norm_num) (by norm_num) [] []).2.2.2.2.2⟩

/-! ## Claim C8 -/

/-- C8 counterexample: on an error-status result the built claim's caveats
list is NOT empty — `_build_caveats` returns one fixed caveat for errors. -/
theorem c8_counterexample : (build_claim sampleError "LA.01").caveats ≠ [] := by decide

/-- C8 (amended): on pass both caveats and recommendations are empty; on
error the recommendations are empty but the caveats consist of the single
fixed string "Check failed with an error; evidence may be incomplete.". -/
theorem c8_caveats_amended (r : CheckResult) (cid : String) :
    (r.status = "pass" →
      (build_claim r cid).caveats = [] ∧ (build_claim r cid).recommendations = []) ∧
    (r.status = "error" →
      (build_claim r cid).caveats =
        ["Check failed with an error; evidence may be incomplete."] ∧
      (build_claim r cid).recommendations = []) := by
  constructor <;> intro h <;>
    exact ⟨by simp [build_claim, _build_caveats, h], by simp [build_claim, _build_recommendations, h]⟩

/-- C8 witness: the amended statement at a concrete error-status result. -/
theorem c8_witness :
    (build_claim sampleError "LA.02").caveats =
      ["Check failed with an error; evidence may be incomplete."] ∧
    (build_claim sampleError "LA.02").recommendations = [] :=
  (c8_caveats_amended sampleError "LA.02").2 rfl

/-! ## Claim C9 -/

theorem slaStep_foldl (parseIso : String → Option Int) (now sla_days : Int)
    (ds : List KCUser) (tr : Nat) (br : List Finding) :
    (ds.foldl (slaStep parseIso now sla_days) (tr, br)).1 =
      tr + ds.countP hasTermAttr ∧
    (ds.foldl (slaStep parseIso now sla_days) (tr, br)).2.length =
      br.length + ds.countP (breachesSla parseIso now sla_days) := by
  induction ds generalizing tr br with
  | nil => simp
  | cons u us ih =>
    simp only [List.foldl_cons, List.countP_cons]
    cases hts : u.termDates with
    | nil =>
      have hstep : slaStep parseIso now sla_days (tr, br) u = (tr, br) := by
        unfold slaStep
        rw [hts]
      have h1 : hasTermAttr u = false := by
        unfold hasTermAttr; rw [hts]; rfl
      have h2 : breachesSla parseIso now sla_days u = false := by
        unfold breachesSla; rw [hts]
      rw [hstep, h1, h2]
      have hi := ih tr br
      exact ⟨by rw [hi.1]; simp, by rw [hi.2]; simp⟩
    | cons raw rest =>
      have h1 : hasTermAttr u = true := by
        unfold hasTermAttr; rw [hts]; rfl
      cases hp : parseIso raw with
      | none =>
        have hstep : slaStep parseIso now sla_days (tr, br) u = (tr + 1, br) := by
          unfold slaStep
          rw [hts]
          simp [hp]
        have h2 : breachesSla parseIso now sla_days u = false := by
          unfold breachesSla
          rw [hts]
          simp [hp]
        rw [hstep, h1, h2]
        have hi := ih (tr + 1) br
        exact ⟨by rw [hi.1]; simp; omega, by rw [hi.2]; simp⟩
      | some t =>
        by_cases hb : Int.fdiv (now - t) 86400 > sla_days
        · have hstep : slaStep parseIso now sla_days (tr, br) u =
              (tr + 1, br ++ [⟨u.username, Int.fdiv (now - t) 86400, Int.fdiv (now - t) 86400 - sla_days⟩]) := by
            unfold slaStep
            rw [hts]
            simp [hp, hb]
          have h2 : breachesSla parseIso now sla_days u = true := by
            unfold breachesSla
            rw [hts]
            simp [hp, hb]
          rw [hstep, h1, h2]
          have hi := ih (tr + 1)
            (br ++ [⟨u.username, Int.fdiv (now - t) 86400, Int.fdiv (now - t) 86400 - sla_days⟩])
          exact ⟨by rw [hi.1]; simp; omega, by rw [hi.2]; simp; omega⟩
        · have hstep : slaStep parseIso now sla_days (tr, br) u = (tr + 1, br) := by
            unfold slaStep
            rw [hts]
            simp [hp, hb]
          have h2 : breachesSla parseIso now sla_days u = false := by
            unfold breachesSla
            rw [hts]
            simp [hp, hb]
          rw [hstep, h1, h2]
          have hi := ih (tr + 1) br
          exact ⟨by rw [hi.1]; simp; omega, by rw [hi.2]; simp⟩

/-- C9 counterexample: one disabled user whose termination attribute fails
to parse IS counted in `disabled_users_with_sla_tracking` (the source
increments `tracked` before parsing), while the claim's reading — count only
users whose attribute parses — gives 0. -/
theorem c9_counterexample :
    (terminations_sla parseNone 0 1 [badUser]).summary.disabled_users_with_sla_tracking = 1 ∧
    claimTrackedCount parseNone [badUser] = 0 := by
  constructor
  · rfl
  · rfl

/-- C9 (amended): `disabled_users_with_sla_tracking` counts the disabled
users whose termination attribute is present (non-empty), whether or not it
parses; users with an unparseable value are skipped for breach evaluation
only; and the check fails iff at least one disabled user with a parseable
attribute has `days_open > sla_days`. -/
theorem c9_terminations_tracked (parseIso : String → Option Int) (now sla_days : Int)
    (users : List KCUser) :
    (terminations_sla parseIso now sla_days users).summary.disabled_users_with_sla_tracking =
      users.countP (fun u => !u.enabled && hasTermAttr u) ∧
    ((terminations_sla parseIso now sla_days users).status = "fail" ↔
      0 < users.countP (fun u => !u.enabled && breachesSla parseIso now sla_days u)) := by
  have hfold := slaStep_foldl parseIso now sla_days
    (users.filter (fun u => !u.enabled)) 0 []
  have hc1 : (users.filter (fun u => !u.enabled)).countP hasTermAttr =
      users.countP (fun u => !u.enabled && hasTermAttr u) := by
    rw [List.countP_filter]
    exact List.countP_congr (fun a _ => by rw [Bool.and_comm])
  have hc2 : (users.filter (fun u => !u.enabled)).countP
        (breachesSla parseIso now sla_days) =
      users.countP (fun u => !u.enabled && breachesSla parseIso now sla_days u) := by
    rw [List.countP_filter]
    exact List.countP_congr (fun a _ => by rw [Bool.and_comm])
  unfold terminations_sla
  dsimp only
  split_ifs with hfail
  · refine ⟨?_, ?_⟩
    · simpa [hc1] using hfold.1
    · simp only []
      constructor
      · intro _
        have := hfold.2
        simp only [List.length_nil, Nat.zero_add] at this
        rw [hc2] at this
        omega
      · intro _
        trivial
  · refine ⟨?_, ?_⟩
    · simpa [hc1] using hfold.1
    · have := hfold.2
      simp only [List.length_nil, Nat.zero_add] at this
      rw [hc2] at this
      constructor
      · intro hcontra
        simp at hcontra
      · intro hpos
        omega

/-! ## Claim C1 -/

/-- C1: for a non-empty tree and any in-range index, `get_proof` returns
the leaf hash at that index, the tree's root as `root_hash`, and a proof
list accepted by `verify_proof`; for any out-of-range index it fails
(raises `IndexError`, modelled by `none`). -/
theorem c1_get_proof_verify (leaves : List String) (i : Int) (hne : leaves ≠ []) :
    (0 ≤ i → i < (leaves.length : Int) →
      ∃ pf : MerkleTree.MerkleProof,
        MerkleTree.get_proof leaves i = some pf ∧
        pf.leaf_hash = leaves.getD i.toNat "" ∧
        MerkleTree.root leaves = some pf.root_hash ∧
        MerkleTree.verify_proof pf.leaf_hash pf.proof_hashes pf.root_hash = true) ∧
    ((i < 0 ∨ (leaves.length : Int) ≤ i) → MerkleTree.get_proof leaves i = none) := by
  have hempty : leaves.isEmpty = false := by
    cases leaves with
    | nil => simp at hne
    | cons a t => rfl
  have hbt : _build_tree leaves = buildLevels leaves := by
    unfold _build_tree
    rw [hempty]
    rfl
  constructor
  · intro h0 h1
    have hnat : i.toNat < leaves.length := by omega
    have hcond : ¬(i < 0 ∨ (leaves.length : Int) ≤ i) := by omega
    refine ⟨{ leaf_hash := leaves.getD i.toNat ""
              index := i
              proof_hashes := MerkleTree.proofHashes (_build_tree leaves).dropLast i.toNat
              root_hash := MerkleTree.rootStr leaves }, ?_, rfl, ?_, ?_⟩
    · unfold MerkleTree.get_proof
      rw [if_neg hcond]
    · unfold MerkleTree.root
      rw [hempty]
      rfl
    · unfold MerkleTree.verify_proof
      unfold MerkleTree.verifyFold
      have hchain := MerkleTree.verifyFold_chain leaves i.toNat hnat
      unfold MerkleTree.verifyFold at hchain
      rw [hbt, hchain]
      unfold MerkleTree.rootStr
      rw [hbt]
      simp
  · intro hout
    unfold MerkleTree.get_proof
    rw [if_pos hout]

/-- C1 witness: the in-range and out-of-range halves at a three-leaf tree. -/
theorem c1_witness :
    (∃ pf : MerkleTree.MerkleProof,
        MerkleTree.get_proof ["aa", "bb", "cc"] 1 = some pf ∧
        pf.leaf_hash = (["aa", "bb", "cc"] : List String).getD (1 : Int).toNat "" ∧
        MerkleTree.root ["aa", "bb", "cc"] = some pf.root_hash ∧
        MerkleTree.verify_proof pf.leaf_hash pf.proof_hashes pf.root_hash = true) ∧
    MerkleTree.get_proof ["aa", "bb", "cc"] 5 = none :=
  ⟨(c1_get_proof_verify ["aa", "bb", "cc"] 1 (by decide)).1 (by decide) (by decide),
   (c1_get_proof_verify ["aa", "bb", "cc"] 5 (by decide)).2 (by decide)⟩

/-! ## Claim C10 -/

theorem b64Val?_b64Chr : ∀ v : Nat, v < 64 → b64Val? (b64Chr v) = some v := by decide

theorem b64Chr_ne_pad : ∀ v : Nat, v < 64 → ¬(b64Chr v = '=') := by decide

theorem b64Chr_beq_pad : ∀ v : Nat, v < 64 → (b64Chr v == '=') = false := by decide

/-- Lenient decoding recovers the bytes from a padded encoding, whatever
follows the first padding character. -/
theorem a2b_encChunks (bs : List Nat) (h : ∀ x ∈ bs, x < 256) (tail : List Char) :
    a2b_base64 (encChunks bs ++ '=' :: tail) = some bs := by
  match bs with
  | [] =>
    simp [encChunks, a2b_base64]
  | [b0] =>
    have hb0 : b0 < 256 := h b0 (by simp)
    have h1 := b64Val?_b64Chr (b0 / 4) (by omega)
    have h2 := b64Val?_b64Chr (b0 % 4 * 16) (by omega)
    have n1 := b64Chr_ne_pad (b0 / 4) (by omega)
    have n2 := b64Chr_ne_pad (b0 % 4 * 16) (by omega)
    simp [encChunks, a2b_base64, h1, h2, n1, n2]
    omega
  | [b0, b1] =>
    have hb0 : b0 < 256 := h b0 (by simp)
    have hb1 : b1 < 256 := h b1 (by simp)
    have h1 := b64Val?_b64Chr (b0 / 4) (by omega)
    have h2 := b64Val?_b64Chr (b0 % 4 * 16 + b1 / 16) (by omega)
    have h3 := b64Val?_b64Chr (b1 % 16 * 4) (by omega)
    have n1 := b64Chr_ne_pad (b0 / 4) (by omega)
    have n2 := b64Chr_ne_pad (b0 % 4 * 16 + b1 / 16) (by omega)
    have n3 := b64Chr_ne_pad (b1 % 16 * 4) (by omega)
    simp [encChunks, a2b_base64, h1, h2, h3, n1, n2, n3]
    omega
  | b0 :: b1 :: b2 :: rest =>
    have hb0 : b0 < 256 := h b0 (by simp)
    have hb1 : b1 < 256 := h b1 (by simp)
    have hb2 : b2 < 256 := h b2 (by simp)
    have hrest : ∀ x ∈ rest, x < 256 := fun x hx => h x (by simp [hx])
    have h1 := b64Val?_b64Chr (b0 / 4) (by omega)
    have h2 := b64Val?_b64Chr (b0 % 4 * 16 + b1 / 16) (by omega)
    have h3 := b64Val?_b64Chr (b1 % 16 * 4 + b2 / 64) (by omega)
    have h4 := b64Val?_b64Chr (b2 % 64) (by omega)
    have n1 := b64Chr_ne_pad (b0 / 4) (by omega)
    have n2 := b64Chr_ne_pad (b0 % 4 * 16 + b1 / 16) (by omega)
    have n3 := b64Chr_ne_pad (b1 % 16 * 4 + b2 / 64) (by omega)
    have n4 := b64Chr_ne_pad (b2 % 64) (by omega)
    have ih := a2b_encChunks rest hrest tail
    simp [encChunks, a2b_base64, h1, h2, h3, h4, n1, n2, n3, n4, ih]
    refine ⟨by omega, by omega, by omega⟩

/-- Lenient decoding also recovers the bytes from the stripped encoding
once `verify`'s two `'='` characters are appended. -/
theorem a2b_encCore (bs : List Nat) (h : ∀ x ∈ bs, x < 256) (tail : List Char) :
    a2b_base64 (encCore bs ++ '=' :: tail) = some bs := by
  match bs with
  | [] =>
    simp [encCore, a2b_base64]
  | [b0] =>
    have hb0 : b0 < 256 := h b0 (by simp)
    have h1 := b64Val?_b64Chr (b0 / 4) (by omega)
    have h2 := b64Val?_b64Chr (b0 % 4 * 16) (by omega)
    have n1 := b64Chr_ne_pad (b0 / 4) (by omega)
    have n2 := b64Chr_ne_pad (b0 % 4 * 16) (by omega)
    simp [encCore, a2b_base64, h1, h2, n1, n2]
    omega
  | [b0, b1] =>
    have hb0 : b0 < 256 := h b0 (by simp)
    have hb1 : b1 < 256 := h b1 (by simp)
    have h1 := b64Val?_b64Chr (b0 / 4) (by omega)
    have h2 := b64Val?_b64Chr (b0 % 4 * 16 + b1 / 16) (by omega)
    have h3 := b64Val?_b64Chr (b1 % 16 * 4) (by omega)
    have n1 := b64Chr_ne_pad (b0 / 4) (by omega)
    have n2 := b64Chr_ne_pad (b0 % 4 * 16 + b1 / 16) (by omega)
    have n3 := b64Chr_ne_pad (b1 % 16 * 4) (by omega)
    simp [encCore, a2b_base64, h1, h2, h3, n1, n2, n3]
    omega
  | b0 :: b1 :: b2 :: rest =>
    have hb0 : b0 < 256 := h b0 (by simp)
    have hb1 : b1 < 256 := h b1 (by simp)
    have hb2 : b2 < 256 := h b2 (by simp)
    have hrest : ∀ x ∈ rest, x < 256 := fun x hx => h x (by simp [hx])
    have h1 := b64Val?_b64Chr (b0 / 4) (by omega)
    have h2 := b64Val?_b64Chr (b0 % 4 * 16 + b1 / 16) (by omega)
    have h3 := b64Val?_b64Chr (b1 % 16 * 4 + b2 / 64) (by omega)
    have h4 := b64Val?_b64Chr (b2 % 64) (by omega)
    have n1 := b64Chr_ne_pad (b0 / 4) (by omega)
    have n2 := b64Chr_ne_pad (b0 % 4 * 16 + b1 / 16) (by omega)
    have n3 := b64Chr_ne_pad (b1 % 16 * 4 + b2 / 64) (by omega)
    have n4 := b64Chr_ne_pad (b2 % 64) (by omega)
    have ih := a2b_encCore rest hrest tail
    simp [encCore, a2b_base64, h1, h2, h3, h4, n1, n2, n3, n4, ih]
    refine ⟨by omega, by omega, by omega⟩

theorem dropWhile_append_stop (p : Char → Bool) (A : List Char) (c : Char) (B : List Char)
    (hc : p c = false) :
    (A ++ c :: B).dropWhile p = A.dropWhile p ++ c :: B := by
  induction A with
  | nil => simp [List.dropWhile_cons, hc]
  | cons a A ih =>
    by_cases hpa : p a = true <;> simp [List.dropWhile_cons, hpa, ih]

/-- Stripping trailing padding from the padded encoding yields the unpadded
core. -/
theorem stripPad_encChunks (bs : List Nat) (h : ∀ x ∈ bs, x < 256) :
    stripPad (encChunks bs) = encCore bs := by
  match bs with
  | [] => rfl
  | [b0] =>
    have hb0 : b0 < 256 := h b0 (by simp)
    have m1 := b64Chr_beq_pad (b0 / 4) (by omega)
    have m2 := b64Chr_beq_pad (b0 % 4 * 16) (by omega)
    simp [stripPad, encChunks, encCore, List.dropWhile, m1, m2]
  | [b0, b1] =>
    have hb0 : b0 < 256 := h b0 (by simp)
    have hb1 : b1 < 256 := h b1 (by simp)
    have m1 := b64Chr_beq_pad (b0 / 4) (by omega)
    have m2 := b64Chr_beq_pad (b0 % 4 * 16 + b1 / 16) (by omega)
    have m3 := b64Chr_beq_pad (b1 % 16 * 4) (by omega)
    simp [stripPad, encChunks, encCore, List.dropWhile, m1, m2, m3]
  | b0 :: b1 :: b2 :: rest =>
    have hb2 : b2 < 256 := h b2 (by simp)
    have hrest : ∀ x ∈ rest, x < 256 := fun x hx => h x (by simp [hx])
    have m4 := b64Chr_beq_pad (b2 % 64) (by omega)
    have ih := stripPad_encChunks rest hrest
    show stripPad (b64Chr (b0 / 4) :: b64Chr (b0 % 4 * 16 + b1 / 16) ::
        b64Chr (b1 % 16 * 4 + b2 / 64) :: b64Chr (b2 % 64) :: encChunks rest) = _
    unfold stripPad at ih ⊢
    simp only [List.reverse_cons, List.append_assoc, List.nil_append, List.singleton_append,
      List.cons_append]
    rw [dropWhile_append_stop (fun c => c == '=') (encChunks rest).reverse (b64Chr (b2 % 64))
      [b64Chr (b1 % 16 * 4 + b2 / 64), b64Chr (b0 % 4 * 16 + b1 / 16), b64Chr (b0 / 4)] m4]
    simp only [List.reverse_append, List.reverse_cons, List.reverse_nil, List.nil_append]
    simp only [encCore]
    rw [← ih]
    simp

/-- C10: `KeyPair.verify` appends `"=="` before decoding, so it returns the
same boolean on a base64url signature string whether its trailing padding is
kept or stripped; consequently `verify(p, sign(p))` is true under the same
key pair even though `sign`'s output carries its padding. -/
theorem c10_verify_padding_insensitive (rawVerify : List Nat → List Nat → Bool)
    (rawSign : List Nat → List Nat) (payload : Json) (sig : List Nat)
    (hsig : ∀ x ∈ sig, x < 256) :
    (KeyPair.verify rawVerify payload (String.mk (encChunks sig)) =
       KeyPair.verify rawVerify payload (String.mk (stripPad (encChunks sig)))) ∧
    ((∀ m, rawVerify (rawSign m) m = true) →
      (∀ x ∈ rawSign (_canonical payload), x < 256) →
      KeyPair.verify rawVerify payload (KeyPair.sign rawSign payload) = true) := by
  constructor
  · unfold KeyPair.verify
    rw [show (String.mk (encChunks sig)).data = encChunks sig from rfl,
        show (String.mk (stripPad (encChunks sig))).data = stripPad (encChunks sig) from rfl,
        stripPad_encChunks sig hsig,
        a2b_encChunks sig hsig ['='], a2b_encCore sig hsig ['=']]
  · intro hcorrect hbytes
    unfold KeyPair.verify KeyPair.sign
    rw [show (String.mk (encChunks (rawSign (_canonical payload)))).data =
          encChunks (rawSign (_canonical payload)) from rfl,
        a2b_encChunks (rawSign (_canonical payload)) hbytes ['=']]
    exact hcorrect _

/-- C10 witness: a concrete verifier/signer pair accepting its own output. -/
theorem c10_witness :
    KeyPair.verify alwaysVerify Json.null (KeyPair.sign nilRawSign Json.null) = true :=
  (c10_verify_padding_insensitive alwaysVerify nilRawSign Json.null [] (by simp)).2
    (fun m => rfl) (by simp [nilRawSign])
